import Mathlib

/-!
Shallow embedding of the marketplace module of the wallet-point backend
(`internal/marketplace/repository.go`, `internal/marketplace/handler.go`).
The relational tables are lists of rows; each repository method becomes a
pure function on the database state.  GORM/SQL behaviour is modelled as:
`Where` = `List.filter` / predicate on rows, `First` = `List.find?`,
`Update` on a where-clause = `List.map` over matching rows, `Create` =
append with a fresh auto-increment id, `ORDER BY created_at DESC` =
`List.mergeSort` with the descending comparator, `OFFSET`/`LIMIT` =
`List.drop`/`List.take`.  A `db.Transaction` block is a function
`Db → Except String Db` run by `runTx`, which commits the returned state
on success and keeps the initial state on error (rollback).  Storage
failures are injected by a fault oracle deciding whether the n-th write
inside a transaction fails.
-/

namespace WalletPoint

/-- Product row: id, name, description, price (points), stock, status
(`active`/`inactive`), creation timestamp. -/
structure Product where
  id : Nat
  name : String
  description : String
  price : Int
  stock : Int
  status : String
  createdAt : Nat
  deriving Repr, DecidableEq

/-- Cart row: (user, product) with a quantity. -/
structure CartItem where
  id : Nat
  userID : Nat
  productID : Nat
  quantity : Int
  deriving Repr, DecidableEq

/-- Wallet row (owned by the wallet module; the marketplace only debits it). -/
structure Wallet where
  id : Nat
  userID : Nat
  balance : Int
  deriving Repr, DecidableEq

/-- Marketplace transaction ledger row. -/
structure MarketplaceTransaction where
  id : Nat
  walletID : Nat
  productID : Nat
  quantity : Int
  amount : Int
  createdAt : Nat
  deriving Repr, DecidableEq

/-- The database state: the four tables the marketplace module touches. -/
structure Db where
  products : List Product
  cartItems : List CartItem
  wallets : List Wallet
  transactions : List MarketplaceTransaction
  deriving Repr, DecidableEq

/-- Query params of the product listing (`ProductListParams`). -/
structure ProductListParams where
  status : String
  page : Int
  limit : Int
  deriving Repr, DecidableEq

/-- `ORDER BY created_at DESC` comparator for products. -/
def createdDescProd (a b : Product) : Bool := b.createdAt ≤ a.createdAt

/-- `ORDER BY mt.created_at DESC` comparator for ledger rows. -/
def createdDescTx (a b : MarketplaceTransaction) : Bool := b.createdAt ≤ a.createdAt

namespace MarketplaceRepository

/-- `GetAll` (repository.go 18-43): filter by status when the filter is
non-empty, count the filtered rows, then apply
`LIMIT limit OFFSET (page-1)*limit ORDER BY created_at DESC`. -/
def GetAll (db : Db) (params : ProductListParams) : List Product × Int :=
  let filtered :=
    if params.status == "" then db.products
    else db.products.filter (fun p => p.status == params.status)
  let total : Int := filtered.length
  let offset := (params.page - 1) * params.limit
  (((filtered.mergeSort createdDescProd).drop offset.toNat).take params.limit.toNat, total)

/-- `FindByID` (repository.go 46-56): `First` by primary key; a missing row
becomes the error `product not found`. -/
def FindByID (db : Db) (productID : Nat) : Except String Product :=
  match db.products.find? (fun p => p.id == productID) with
  | some p => .ok p
  | none => .error "product not found"

/-- Auto-increment id for a product insert. -/
def nextProductId (db : Db) : Nat := db.products.foldr (fun p m => max p.id m) 0 + 1

/-- `Create` (repository.go 59-61): insert a product row with a fresh id. -/
def Create (db : Db) (name description : String) (price stock : Int) (status : String)
    (now : Nat) : Product × Db :=
  let p : Product :=
    { id := nextProductId db, name := name, description := description,
      price := price, stock := stock, status := status, createdAt := now }
  (p, { db with products := db.products ++ [p] })

/-- The partial update set of `Update` (repository.go 64-66); the Go code
passes an untyped field map, whose possible product columns are these. -/
structure ProductUpdates where
  name : Option String
  description : Option String
  price : Option Int
  stock : Option Int
  status : Option String
  deriving Repr, DecidableEq

/-- Apply a field map to one product row. -/
def applyUpdates (u : ProductUpdates) (p : Product) : Product :=
  { p with
    name := u.name.getD p.name,
    description := u.description.getD p.description,
    price := u.price.getD p.price,
    stock := u.stock.getD p.stock,
    status := u.status.getD p.status }

/-- `Update` (repository.go 64-66): `UPDATE products SET <fields> WHERE id = ?`. -/
def Update (db : Db) (productID : Nat) (u : ProductUpdates) : Db :=
  { db with products :=
      db.products.map (fun p => if p.id == productID then applyUpdates u p else p) }

/-- `Delete` (repository.go 69-71): soft delete,
`UPDATE products SET status = inactive WHERE id = ?`. -/
def Delete (db : Db) (productID : Nat) : Db :=
  { db with products :=
      db.products.map (fun p => if p.id == productID then { p with status := "inactive" } else p) }

/-- `UpdateStock` (repository.go 74-82):
`UPDATE products SET stock = stock + delta WHERE id = ?`. -/
def UpdateStock (db : Db) (productID : Nat) (delta : Int) : Db :=
  { db with products :=
      db.products.map (fun p => if p.id == productID then { p with stock := p.stock + delta } else p) }

/-- Auto-increment id for a cart insert. -/
def nextCartId (db : Db) : Nat := db.cartItems.foldr (fun r m => max r.id m) 0 + 1

/-- `AddToCart` (repository.go 84-91): look up the (user, product) row; if it
exists set its quantity to `existing.Quantity + item.Quantity`, else insert
the new row. -/
def AddToCart (db : Db) (userID productID : Nat) (quantity : Int) : Db :=
  match db.cartItems.find? (fun r => r.userID == userID && r.productID == productID) with
  | some existing =>
      { db with cartItems :=
          db.cartItems.map (fun r =>
            if r.id == existing.id then { r with quantity := existing.quantity + quantity } else r) }
  | none =>
      { db with cartItems :=
          db.cartItems ++
            [{ id := nextCartId db, userID := userID, productID := productID, quantity := quantity }] }

/-- `GetCart` (repository.go 93-97): all cart rows of one user. -/
def GetCart (db : Db) (userID : Nat) : List CartItem :=
  db.cartItems.filter (fun r => r.userID == userID)

/-- `UpdateCartItem` (repository.go 99-101):
`UPDATE cart_items SET quantity = ? WHERE user_id = ? AND id = ?`. -/
def UpdateCartItem (db : Db) (userID itemID : Nat) (quantity : Int) : Db :=
  { db with cartItems :=
      db.cartItems.map (fun r =>
        if r.userID == userID && r.id == itemID then { r with quantity := quantity } else r) }

/-- `RemoveFromCart` (repository.go 103-105):
`DELETE FROM cart_items WHERE user_id = ? AND id = ?`. -/
def RemoveFromCart (db : Db) (userID itemID : Nat) : Db :=
  { db with cartItems :=
      db.cartItems.filter (fun r => !(r.userID == userID && r.id == itemID)) }

/-- `ClearCart` (repository.go 107-112):
`DELETE FROM cart_items WHERE user_id = ?`. -/
def ClearCart (db : Db) (userID : Nat) : Db :=
  { db with cartItems := db.cartItems.filter (fun r => !(r.userID == userID)) }

/-- Auto-increment id for a ledger insert. -/
def nextTransactionId (db : Db) : Nat :=
  db.transactions.foldr (fun t m => max t.id m) 0 + 1

/-- `CreateTransaction` (part_001 84-90): insert one ledger row. -/
def CreateTransaction (db : Db) (walletID productID : Nat) (quantity amount : Int)
    (now : Nat) : Db :=
  { db with transactions :=
      db.transactions ++
        [{ id := nextTransactionId db, walletID := walletID, productID := productID,
           quantity := quantity, amount := amount, createdAt := now }] }

/-- `GetAllTransactions` (part_001 92-109): count all ledger rows, then
`LIMIT limit OFFSET offset ORDER BY mt.created_at DESC`; the LEFT JOINs only
attach display columns and keep every ledger row. -/
def GetAllTransactions (db : Db) (limit offset : Int) :
    List MarketplaceTransaction × Int :=
  (((db.transactions.mergeSort createdDescTx).drop offset.toNat).take limit.toNat,
    (db.transactions.length : Int))

end MarketplaceRepository

/-- Modelled from the spec: the wallet table is owned by the external wallet
module (§2, §3); the marketplace core only reads a user's wallet and debits
its balance transactionally. -/
def findWalletByUserID (db : Db) (userID : Nat) : Option Wallet :=
  db.wallets.find? (fun w => w.userID == userID)

/-- Modelled from the spec: the wallet debit performed during purchase and
checkout (§4.3 step 4). -/
def debitWallet (db : Db) (walletID : Nat) (amount : Int) : Db :=
  { db with wallets :=
      db.wallets.map (fun w =>
        if w.id == walletID then { w with balance := w.balance - amount } else w) }

/-- One write against the storage layer inside a transaction: the fault
oracle `fails` decides whether the `idx`-th write errors; on success the
write is applied and the write counter advances. -/
def tryWrite (fails : Nat → Bool) (idx : Nat) (f : Db → Db) (db : Db) :
    Except String (Db × Nat) :=
  if fails idx then .error "storage error" else .ok (f db, idx + 1)

/-- `db.Transaction` boundary: run the body on the current state; commit the
returned state on success, keep the initial state on any error (rollback). -/
def runTx (body : Db → Except String Db) (db : Db) : Except String Unit × Db :=
  match body db with
  | .ok db2 => (.ok (), db2)
  | .error e => (.error e, db)

/-- Modelled from the spec: the body of the `PurchaseProduct` service
(§4.3, the service layer is not part of the excerpted source): load the
product (not-found check), verify quantity ≤ stock, load the wallet, verify
balance covers price × quantity, then — inside the surrounding transaction —
debit the wallet, decrement stock via `UpdateStock`, and append one ledger
row via `CreateTransaction`. -/
def PurchaseBody (fails : Nat → Bool) (db : Db) (userID productID : Nat)
    (quantity : Int) (now : Nat) : Except String Db :=
  match db.products.find? (fun p => p.id == productID) with
  | none => .error "product not found"
  | some p =>
    if p.stock < quantity then .error "insufficient stock"
    else
      match findWalletByUserID db userID with
      | none => .error "wallet not found"
      | some w =>
        if w.balance < p.price * quantity then .error "insufficient balance"
        else
          match tryWrite fails 0 (fun d => debitWallet d w.id (p.price * quantity)) db with
          | .error e => .error e
          | .ok (db1, i1) =>
            match tryWrite fails i1
                (fun d => MarketplaceRepository.UpdateStock d productID (-quantity)) db1 with
            | .error e => .error e
            | .ok (db2, i2) =>
              match tryWrite fails i2
                  (fun d => MarketplaceRepository.CreateTransaction d w.id productID
                    quantity (p.price * quantity) now) db2 with
              | .error e => .error e
              | .ok (db3, _) => .ok db3

/-- The purchase service call: its body runs inside one database
transaction. -/
def ServicePurchase (fails : Nat → Bool) (db : Db) (userID productID : Nat)
    (quantity : Int) (now : Nat) : Except String Unit × Db :=
  runTx (fun d => PurchaseBody fails d userID productID quantity now) db

/-- Modelled from the spec: checkout validation pass (§4.3 steps 1-3): for
each cart line, load the product and verify quantity ≤ stock, accumulating
the total point cost across the lines. -/
def checkoutLines (db : Db) (items : List CartItem) : Except String Int :=
  match items with
  | [] => .ok 0
  | item :: rest =>
    match db.products.find? (fun p => p.id == item.productID) with
    | none => .error "product not found"
    | some p =>
      if p.stock < item.quantity then .error "insufficient stock"
      else
        match checkoutLines db rest with
        | .error e => .error e
        | .ok restCost => .ok (p.price * item.quantity + restCost)

/-- Modelled from the spec: checkout write pass (§4.3 steps 5-6): for each
cart line, decrement the product stock and append one ledger row, threading
the write counter of the fault oracle. -/
def applyLines (fails : Nat → Bool) (idx : Nat) (walletID : Nat) (now : Nat)
    (items : List CartItem) (db : Db) : Except String (Db × Nat) :=
  match items with
  | [] => .ok (db, idx)
  | item :: rest =>
    match db.products.find? (fun p => p.id == item.productID) with
    | none => .error "product not found"
    | some p =>
      match tryWrite fails idx
          (fun d => MarketplaceRepository.UpdateStock d item.productID (-item.quantity)) db with
      | .error e => .error e
      | .ok (db1, i1) =>
        match tryWrite fails i1
            (fun d => MarketplaceRepository.CreateTransaction d walletID item.productID
              item.quantity (p.price * item.quantity) now) db1 with
        | .error e => .error e
        | .ok (db2, i2) => applyLines fails i2 walletID now rest db2

/-- Modelled from the spec: the body of the cart `Checkout` service (§4.3):
read the user's cart, validate every line and the wallet balance, then debit
the wallet, apply every line's stock decrement and ledger append, and clear
the cart — all inside the surrounding transaction. -/
def CheckoutBody (fails : Nat → Bool) (db : Db) (userID : Nat) (now : Nat) :
    Except String Db :=
  if (MarketplaceRepository.GetCart db userID).isEmpty then .error "cart is empty"
  else
    match checkoutLines db (MarketplaceRepository.GetCart db userID) with
    | .error e => .error e
    | .ok totalCost =>
      match findWalletByUserID db userID with
      | none => .error "wallet not found"
      | some w =>
        if w.balance < totalCost then .error "insufficient balance"
        else
          match tryWrite fails 0 (fun d => debitWallet d w.id totalCost) db with
          | .error e => .error e
          | .ok (db1, i1) =>
            match applyLines fails i1 w.id now (MarketplaceRepository.GetCart db userID) db1 with
            | .error e => .error e
            | .ok (db2, i2) =>
              match tryWrite fails i2
                  (fun d => MarketplaceRepository.ClearCart d userID) db2 with
              | .error e => .error e
              | .ok (db3, _) => .ok db3

/-- The cart checkout service call: its body runs inside one database
transaction. -/
def ServiceCheckout (fails : Nat → Bool) (db : Db) (userID : Nat) (now : Nat) :
    Except String Unit × Db :=
  runTx (fun d => CheckoutBody fails d userID now) db

/-- Modelled from the spec: service `GetTransactions` applies the pagination
math `offset = (page-1)*limit` (§4.4) before calling the repository. -/
def ServiceGetTransactions (db : Db) (limit page : Int) :
    List MarketplaceTransaction × Int :=
  MarketplaceRepository.GetAllTransactions db limit ((page - 1) * limit)

/-- Modelled from the spec: service `GetAllProducts` passes the listing
params through to the repository (§4.1). -/
def ServiceGetAllProducts (db : Db) (params : ProductListParams) :
    List Product × Int :=
  MarketplaceRepository.GetAll db params

/-- Modelled from the spec: service `GetProductByID` passes through the
repository lookup, whose missing row is the `product not found` error. -/
def ServiceGetProductByID (db : Db) (productID : Nat) : Except String Product :=
  MarketplaceRepository.FindByID db productID

/-- Modelled from the spec: service `CreateProduct` inserts the product row
built from the request. -/
def ServiceCreateProduct (db : Db) (name description : String)
    (price stock : Int) (status : String) (now : Nat) : Product × Db :=
  MarketplaceRepository.Create db name description price stock status now

/-- Modelled from the spec: service `UpdateProduct` first loads the product
(§4.1/§7 not-found check translated to `product not found`), then applies the
partial field set and returns the updated row. -/
def ServiceUpdateProduct (db : Db) (productID : Nat)
    (u : MarketplaceRepository.ProductUpdates) : Except String (Product × Db) :=
  match MarketplaceRepository.FindByID db productID with
  | .error e => .error e
  | .ok _ =>
    let db2 := MarketplaceRepository.Update db productID u
    match MarketplaceRepository.FindByID db2 productID with
    | .error e => .error e
    | .ok p2 => .ok (p2, db2)

/-- Modelled from the spec: service `DeleteProduct` checks existence
(not-found → `product not found`) and then soft-deletes. -/
def ServiceDeleteProduct (db : Db) (productID : Nat) : Except String Db :=
  match MarketplaceRepository.FindByID db productID with
  | .error e => .error e
  | .ok _ => .ok (MarketplaceRepository.Delete db productID)

/-- Modelled from the spec: service `AddToCart` upserts via the repository
(§4.2 add-item). -/
def ServiceAddToCart (db : Db) (userID productID : Nat) (quantity : Int) : Db :=
  MarketplaceRepository.AddToCart db userID productID quantity

/-- Modelled from the spec: service `UpdateCartItem` sets the absolute
quantity via the repository (§4.2 update-item). -/
def ServiceUpdateCartItem (db : Db) (userID itemID : Nat) (quantity : Int) : Db :=
  MarketplaceRepository.UpdateCartItem db userID itemID quantity

/-- Modelled from the spec: service `RemoveFromCart` deletes via the
repository (§4.2 remove-item). -/
def ServiceRemoveFromCart (db : Db) (userID itemID : Nat) : Db :=
  MarketplaceRepository.RemoveFromCart db userID itemID

/-- The two error kinds of `strconv.ParseUint`: a non-numeric string, or a
numeric value exceeding the requested bit size. -/
inductive NumErr where
  | malformed
  | outOfRange
  deriving Repr, DecidableEq

/-- Decimal accumulation over the characters of the id path parameter. -/
def digitsVal (l : List Char) (acc : Nat) : Option Nat :=
  match l with
  | [] => some acc
  | c :: rest => if c.isDigit then digitsVal rest (acc * 10 + (c.toNat - 48)) else none

/-- `strconv.ParseUint(s, 10, 32)`: the string must be a non-empty run of
decimal digits (base 10 admits no sign, prefix or underscore), and the value
must fit in 32 bits. -/
def parseUint32 (s : String) : Except NumErr Nat :=
  match s.data with
  | [] => .error .malformed
  | l =>
    match digitsVal l 0 with
    | none => .error .malformed
    | some n => if n < 2 ^ 32 then .ok n else .error .outOfRange

/-- The value Go leaves in the variable when the error result of
`strconv.ParseUint(s, 10, 32)` is discarded with `_`: the parsed value on
success, 0 on a syntax error, and the maximum 32-bit value on a range
error. -/
def parseUint32Lenient (s : String) : Nat :=
  match parseUint32 s with
  | .ok n => n
  | .error .malformed => 0
  | .error .outOfRange => 2 ^ 32 - 1

/-- Request context a handler reads from gin: authenticated user id, role,
client IP and user agent. -/
structure ReqCtx where
  userID : Nat
  role : String
  clientIP : String
  userAgent : String
  deriving Repr, DecidableEq

/-- One audit record (`audit.CreateAuditParams` as filled in handler.go). -/
structure AuditRecord where
  userID : Nat
  action : String
  entity : String
  entityID : Nat
  details : String
  ipAddress : String
  userAgent : String
  deriving Repr, DecidableEq

/-- Observable outcome of one handler invocation: HTTP status, response
message, resulting database state, and the audit records emitted. -/
structure HandlerResult where
  status : Nat
  message : String
  db : Db
  audits : List AuditRecord
  deriving Repr, DecidableEq

namespace MarketplaceHandler

/-- Handler `GetAll` (handler.go 24-47): a caller whose role is `mahasiswa`
has the status filter overwritten to `active`; any other role keeps the
requested filter. -/
def GetAll (db : Db) (ctx : ReqCtx) (statusQuery : String) (page limit : Int) :
    List Product × Int :=
  let status := if ctx.role == "mahasiswa" then "active" else statusQuery
  ServiceGetAllProducts db { status := status, page := page, limit := limit }

/-- Handler `GetByID` (handler.go 50-64): 400 on an unparsable id, 404 on a
service error, 200 otherwise. -/
def GetByID (db : Db) (idParam : String) : HandlerResult :=
  match parseUint32 idParam with
  | .error _ => { status := 400, message := "Invalid product ID", db := db, audits := [] }
  | .ok pid =>
    match ServiceGetProductByID db pid with
    | .error e => { status := 404, message := e, db := db, audits := [] }
    | .ok _ => { status := 200, message := "Product retrieved successfully", db := db, audits := [] }

/-- Handler `Create` (handler.go 67-93): create the product, respond 201,
then emit one CREATE_PRODUCT audit record. -/
def Create (db : Db) (ctx : ReqCtx) (name description : String)
    (price stock : Int) (status : String) (now : Nat) : HandlerResult :=
  let pd := ServiceCreateProduct db name description price stock status now
  { status := 201, message := "Product created successfully", db := pd.2,
    audits := [{ userID := ctx.userID, action := "CREATE_PRODUCT", entity := "PRODUCT",
                 entityID := pd.1.id,
                 details := "Admin created new product: " ++ pd.1.name,
                 ipAddress := ctx.clientIP, userAgent := ctx.userAgent }] }

/-- Handler `Update` (handler.go 96-131): 400 on an unparsable id, 404 when
the service reports `product not found`, 400 on any other service error;
on success respond 200 and emit one UPDATE_PRODUCT audit record. -/
def Update (db : Db) (ctx : ReqCtx) (idParam : String)
    (u : MarketplaceRepository.ProductUpdates) : HandlerResult :=
  match parseUint32 idParam with
  | .error _ => { status := 400, message := "Invalid product ID", db := db, audits := [] }
  | .ok pid =>
    match ServiceUpdateProduct db pid u with
    | .error e =>
      { status := if e == "product not found" then 404 else 400,
        message := e, db := db, audits := [] }
    | .ok pdb =>
      { status := 200, message := "Product updated successfully", db := pdb.2,
        audits := [{ userID := ctx.userID, action := "UPDATE_PRODUCT", entity := "PRODUCT",
                     entityID := pdb.1.id,
                     details := "Admin updated product: " ++ pdb.1.name,
                     ipAddress := ctx.clientIP, userAgent := ctx.userAgent }] }

/-- Handler `Delete` (handler.go 134-162): 400 on an unparsable id, 404 when
the service reports `product not found`; on success respond 200 and emit one
DELETE_PRODUCT audit record. -/
def Delete (db : Db) (ctx : ReqCtx) (idParam : String) : HandlerResult :=
  match parseUint32 idParam with
  | .error _ => { status := 400, message := "Invalid product ID", db := db, audits := [] }
  | .ok pid =>
    match ServiceDeleteProduct db pid with
    | .error e =>
      { status := if e == "product not found" then 404 else 400,
        message := e, db := db, audits := [] }
    | .ok db2 =>
      { status := 200, message := "Product deleted successfully", db := db2,
        audits := [{ userID := ctx.userID, action := "DELETE_PRODUCT", entity := "PRODUCT",
                     entityID := pid,
                     details := "Admin deleted product ID: " ++ toString pid,
                     ipAddress := ctx.clientIP, userAgent := ctx.userAgent }] }

/-- Handler `Purchase` (handler.go 165-191): 400 on a service error; on
success respond 200 and emit one PURCHASE_PRODUCT audit record. -/
def Purchase (fails : Nat → Bool) (db : Db) (ctx : ReqCtx) (productID : Nat)
    (quantity : Int) (now : Nat) : HandlerResult :=
  match ServicePurchase fails db ctx.userID productID quantity now with
  | (.error e, db2) => { status := 400, message := e, db := db2, audits := [] }
  | (.ok _, db2) =>
    { status := 200, message := "Purchase successful", db := db2,
      audits := [{ userID := ctx.userID, action := "PURCHASE_PRODUCT", entity := "PRODUCT",
                   entityID := productID,
                   details := "User purchased units of product ID " ++ toString productID,
                   ipAddress := ctx.clientIP, userAgent := ctx.userAgent }] }

/-- Handler `AddToCart` (handler.go 225-240): upsert the cart row and
respond 200.  No audit record is emitted on this path. -/
def AddToCart (db : Db) (ctx : ReqCtx) (productID : Nat) (quantity : Int) :
    HandlerResult :=
  let db2 := ServiceAddToCart db ctx.userID productID quantity
  { status := 200, message := "Produk berhasil ditambahkan ke keranjang",
    db := db2, audits := [] }

/-- Handler `UpdateCartItem` (handler.go 242-256): the id path parameter is
parsed with the error discarded (`itemID, _ := strconv.ParseUint(...)`), the
service is called with whatever value that leaves, and the handler responds
200.  No audit record is emitted. -/
def UpdateCartItem (db : Db) (ctx : ReqCtx) (idParam : String) (quantity : Int) :
    HandlerResult :=
  let itemID := parseUint32Lenient idParam
  let db2 := ServiceUpdateCartItem db ctx.userID itemID quantity
  { status := 200, message := "Keranjang berhasil diperbarui", db := db2, audits := [] }

/-- Handler `RemoveFromCart` (handler.go 258-267): the id path parameter is
parsed with the error discarded, the service is called with whatever value
that leaves, and the handler responds 200.  No audit record is emitted. -/
def RemoveFromCart (db : Db) (ctx : ReqCtx) (idParam : String) : HandlerResult :=
  let itemID := parseUint32Lenient idParam
  let db2 := ServiceRemoveFromCart db ctx.userID itemID
  { status := 200, message := "Produk berhasil dihapus dari keranjang",
    db := db2, audits := [] }

/-- Handler `Checkout` (handler.go 269-293): 400 on a service error; on
success respond 200 and emit one CART_CHECKOUT audit record. -/
def Checkout (fails : Nat → Bool) (db : Db) (ctx : ReqCtx) (now : Nat) :
    HandlerResult :=
  match ServiceCheckout fails db ctx.userID now with
  | (.error e, db2) => { status := 400, message := e, db := db2, audits := [] }
  | (.ok _, db2) =>
    { status := 200, message := "Checkout berhasil!", db := db2,
      audits := [{ userID := ctx.userID, action := "CART_CHECKOUT", entity := "WALLET",
                   entityID := ctx.userID,
                   details := "User completed checkout from cart",
                   ipAddress := ctx.clientIP, userAgent := ctx.userAgent }] }

end MarketplaceHandler

/-- Well-formedness of the cart table: primary keys are unique and there is
at most one row per (user, product) pair — the schema constraint behind the
upsert of `AddToCart`. -/
def CartWF (items : List CartItem) : Prop :=
  (items.map CartItem.id).Nodup ∧ (items.map (fun r => (r.userID, r.productID))).Nodup

/-- The status-filtered product table in created_at-descending order: the
full listing before pagination is applied. -/
def sortedFiltered (db : Db) (status : String) : List Product :=
  (if status == "" then db.products
   else db.products.filter (fun p => p.status == status)).mergeSort createdDescProd

/-- The fault oracle of a healthy storage layer: no write fails. -/
def noFail : Nat → Bool := fun _ => false

/-- A sample product row used to exercise the operations concretely. -/
def sampleProduct : Product :=
  { id := 1, name := "pen", description := "blue pen", price := 30, stock := 5,
    status := "active", createdAt := 10 }

/-- A sample wallet row for user 1. -/
def sampleWallet : Wallet := { id := 7, userID := 1, balance := 100 }

/-- A sample database: one active product, one funded wallet, empty cart and
ledger. -/
def sampleDb : Db :=
  { products := [sampleProduct], cartItems := [], wallets := [sampleWallet],
    transactions := [] }

/-- The sample database with one cart row for user 1. -/
def sampleDbCart : Db :=
  { sampleDb with cartItems := [{ id := 3, userID := 1, productID := 1, quantity := 2 }] }

/-- A second sample product, created later than the first. -/
def sampleProduct2 : Product :=
  { id := 2, name := "book", description := "notebook", price := 50, stock := 2,
    status := "active", createdAt := 20 }

/-- A sample database with two active products, for pagination. -/
def sampleDb2 : Db :=
  { products := [sampleProduct, sampleProduct2], cartItems := [],
    wallets := [sampleWallet], transactions := [] }

/-- A sample student-role request context. -/
def sampleCtx : ReqCtx :=
  { userID := 1, role := "mahasiswa", clientIP := "127.0.0.1", userAgent := "curl" }

/-- A sample admin-role request context. -/
def sampleCtxAdmin : ReqCtx :=
  { userID := 9, role := "admin", clientIP := "127.0.0.1", userAgent := "curl" }

/-!  Helper lemmas shared by the claim theorems. -/

/-- `find?` commutes with a row transformation that preserves the predicate. -/
theorem find?_map_pres {α : Type} (f : α → α) (pred : α → Bool) (l : List α)
    (hf : ∀ r, pred (f r) = pred r) :
    (l.map f).find? pred = (l.find? pred).map f := by
  rw [List.find?_map]
  have hc : pred ∘ f = pred := funext hf
  rw [hc]

/-- Every cart row id is bounded by the fold that computes the next
auto-increment id. -/
theorem cartId_le_fold (l : List CartItem) (r : CartItem) (hr : r ∈ l) :
    r.id ≤ l.foldr (fun x m => max x.id m) 0 := by
  induction l with
  | nil => cases hr
  | cons a t ih =>
    rcases List.mem_cons.mp hr with h | h
    · subst h; simp only [List.foldr_cons]; omega
    · have := ih h; simp only [List.foldr_cons]; omega

/-- Every row of the status-filtered listing carries the requested status. -/
theorem getAll_mem_status (db : Db) (params : ProductListParams)
    (hs : params.status ≠ "") :
    ∀ p ∈ (MarketplaceRepository.GetAll db params).1, p.status = params.status := by
  intro p hp
  simp only [MarketplaceRepository.GetAll] at hp
  have h1 := List.mem_of_mem_take hp
  have h2 := List.mem_of_mem_drop h1
  rw [List.mem_mergeSort, if_neg (by simpa using hs)] at h2
  simpa using (List.mem_filter.mp h2).2

/-- Every row of a listing comes from the product table. -/
theorem getAll_mem_products (db : Db) (params : ProductListParams) :
    ∀ p ∈ (MarketplaceRepository.GetAll db params).1, p ∈ db.products := by
  intro p hp
  simp only [MarketplaceRepository.GetAll] at hp
  have h2 := List.mem_of_mem_drop (List.mem_of_mem_take hp)
  rw [List.mem_mergeSort] at h2
  by_cases h : (params.status == "") = true
  · rwa [if_pos h] at h2
  · rw [if_neg h] at h2
    exact (List.mem_filter.mp h2).1

/-- Clearing a user's cart leaves that user with no cart rows. -/
theorem getCart_clearCart (db : Db) (u : Nat) :
    MarketplaceRepository.GetCart (MarketplaceRepository.ClearCart db u) u = [] := by
  simp only [MarketplaceRepository.GetCart, MarketplaceRepository.ClearCart,
    List.filter_filter]
  rw [List.filter_eq_nil_iff]
  intro r _
  simp

/-- C3: a product-listing request from a caller with the constrained student
role `mahasiswa` returns only products whose status is `active`, whatever
status filter the query string carried; any other role gets the requested
filter applied as given. -/
theorem C3_mahasiswa_forced_active (db : Db) (ctx : ReqCtx) (statusQuery : String)
    (page limit : Int) :
    (ctx.role = "mahasiswa" →
      ∀ p ∈ (MarketplaceHandler.GetAll db ctx statusQuery page limit).1,
        p.status = "active")
  ∧ (ctx.role ≠ "mahasiswa" →
      MarketplaceHandler.GetAll db ctx statusQuery page limit =
        MarketplaceRepository.GetAll db
          { status := statusQuery, page := page, limit := limit }) := by
  constructor
  · intro hrole p hp
    have hh : MarketplaceHandler.GetAll db ctx statusQuery page limit =
        MarketplaceRepository.GetAll db
          { status := "active", page := page, limit := limit } := by
      unfold MarketplaceHandler.GetAll ServiceGetAllProducts
      rw [if_pos (by simpa using hrole)]
    rw [hh] at hp
    have hs : ({ status := "active", page := page, limit := limit } :
        ProductListParams).status ≠ "" := by
      show ("active" : String) ≠ ""
      decide
    exact getAll_mem_status db { status := "active", page := page, limit := limit } hs p hp
  · intro hrole
    unfold MarketplaceHandler.GetAll ServiceGetAllProducts
    rw [if_neg (by simpa using hrole)]

/-- Witness for C3 at concrete inputs: a student asking for inactive
products still sees only active ones; an admin keeps the requested filter. -/
theorem C3_witness :
    (∀ p ∈ (MarketplaceHandler.GetAll sampleDb sampleCtx "inactive" 1 20).1,
        p.status = "active")
  ∧ MarketplaceHandler.GetAll sampleDb sampleCtxAdmin "inactive" 1 20 =
      MarketplaceRepository.GetAll sampleDb { status := "inactive", page := 1, limit := 20 } :=
  ⟨(C3_mahasiswa_forced_active sampleDb sampleCtx "inactive" 1 20).1 rfl,
   (C3_mahasiswa_forced_active sampleDb sampleCtxAdmin "inactive" 1 20).2 (by decide)⟩

/-- C9: cart reads are scoped to the requesting user, and cart mutations by
one user never touch another user's cart rows. -/
theorem C9_cart_isolation (db : Db) (a b itemID : Nat) (q : Int) (hab : a ≠ b) :
    (∀ r ∈ MarketplaceRepository.GetCart db a, r.userID = a)
  ∧ MarketplaceRepository.GetCart (MarketplaceRepository.UpdateCartItem db a itemID q) b =
      MarketplaceRepository.GetCart db b
  ∧ MarketplaceRepository.GetCart (MarketplaceRepository.RemoveFromCart db a itemID) b =
      MarketplaceRepository.GetCart db b := by
  refine ⟨?_, ?_, ?_⟩
  · intro r hr
    simpa using (List.mem_filter.mp hr).2
  · simp only [MarketplaceRepository.GetCart, MarketplaceRepository.UpdateCartItem]
    rw [List.filter_map]
    have hcomp : ((fun r : CartItem => r.userID == b) ∘
        (fun r => if r.userID == a && r.id == itemID
          then { r with quantity := q } else r)) = fun r : CartItem => r.userID == b := by
      funext r
      by_cases h : (r.userID == a && r.id == itemID) = true
      · simp only [Function.comp_apply, if_pos h]
      · simp only [Function.comp_apply, if_neg h]
    rw [hcomp]
    rw [List.map_congr_left (g := id) ?_, List.map_id]
    intro r hr
    have hb2 : r.userID = b := by simpa using (List.mem_filter.mp hr).2
    have hcond : (r.userID == a) = false := by
      rw [hb2]; exact beq_eq_false_iff_ne.mpr (fun h => hab h.symm)
    simp [hcond]
  · simp only [MarketplaceRepository.GetCart, MarketplaceRepository.RemoveFromCart,
      List.filter_filter]
    apply List.filter_congr
    intro x _
    by_cases hx : x.userID = b
    · have h1 : (x.userID == a) = false := by
        rw [hx]; exact beq_eq_false_iff_ne.mpr (fun h => hab h.symm)
      simp [h1]
    · have h2 : (x.userID == b) = false := beq_eq_false_iff_ne.mpr hx
      simp [h2]

/-- Witness for C9 at concrete inputs: user 2 updating and removing item 3
leaves user 1's cart row untouched. -/
theorem C9_witness :
    (∀ r ∈ MarketplaceRepository.GetCart sampleDbCart 2, r.userID = 2)
  ∧ MarketplaceRepository.GetCart (MarketplaceRepository.UpdateCartItem sampleDbCart 2 3 9) 1 =
      MarketplaceRepository.GetCart sampleDbCart 1
  ∧ MarketplaceRepository.GetCart (MarketplaceRepository.RemoveFromCart sampleDbCart 2 3) 1 =
      MarketplaceRepository.GetCart sampleDbCart 1 :=
  C9_cart_isolation sampleDbCart 2 1 3 9 (by decide)

/-- C10: an update-cart-item or remove-from-cart request whose id path
parameter is not a decimal digit string has the parse error discarded and
proceeds with item id 0; since no cart row has id 0, the operation matches
no row, reports success (HTTP 200), and changes nothing — it is never
rejected as a validation error. -/
theorem C10_lenient_cart_item_id (db : Db) (ctx : ReqCtx) (s : String) (q : Int)
    (hbad : parseUint32 s = .error .malformed)
    (hids : ∀ r ∈ db.cartItems, r.id ≠ 0) :
    (MarketplaceHandler.UpdateCartItem db ctx s q).status = 200
  ∧ (MarketplaceHandler.UpdateCartItem db ctx s q).db = db
  ∧ (MarketplaceHandler.RemoveFromCart db ctx s).status = 200
  ∧ (MarketplaceHandler.RemoveFromCart db ctx s).db = db := by
  have hlen : parseUint32Lenient s = 0 := by
    simp [parseUint32Lenient, hbad]
  refine ⟨rfl, ?_, rfl, ?_⟩
  · show ServiceUpdateCartItem db ctx.userID (parseUint32Lenient s) q = db
    rw [hlen]
    unfold ServiceUpdateCartItem MarketplaceRepository.UpdateCartItem
    have hm : db.cartItems.map
        (fun r => if r.userID == ctx.userID && r.id == 0
          then { r with quantity := q } else r) = db.cartItems := by
      rw [List.map_congr_left (g := id) ?_, List.map_id]
      intro r hr
      have : (r.id == 0) = false := by simpa using hids r hr
      simp [this]
    rw [hm]
  · show ServiceRemoveFromCart db ctx.userID (parseUint32Lenient s) = db
    rw [hlen]
    unfold ServiceRemoveFromCart MarketplaceRepository.RemoveFromCart
    have hm : db.cartItems.filter
        (fun r => !(r.userID == ctx.userID && r.id == 0)) = db.cartItems := by
      rw [List.filter_eq_self]
      intro r hr
      have : (r.id == 0) = false := by simpa using hids r hr
      simp [this]
    rw [hm]

/-- C4: a product or transaction listing with page p and limit l skips
exactly (p−1)×l rows of the created_at-descending ordering, returns at most
l items in that order, and a status=active filter returns only products
whose status is exactly `active`; the transaction service applies
offset = (page−1)×limit. -/
theorem C4_pagination (db : Db) (status : String) (page limit : Int) :
    ((MarketplaceRepository.GetAll db
        { status := status, page := page, limit := limit }).1.length ≤ limit.toNat)
  ∧ List.Pairwise (fun a b : Product => b.createdAt ≤ a.createdAt)
      (MarketplaceRepository.GetAll db
        { status := status, page := page, limit := limit }).1
  ∧ (status ≠ "" →
      ∀ p ∈ (MarketplaceRepository.GetAll db
        { status := status, page := page, limit := limit }).1, p.status = status)
  ∧ (∀ i, i < (MarketplaceRepository.GetAll db
        { status := status, page := page, limit := limit }).1.length →
      (MarketplaceRepository.GetAll db
        { status := status, page := page, limit := limit }).1[i]? =
        (sortedFiltered db status)[((page - 1) * limit).toNat + i]?)
  ∧ ServiceGetTransactions db limit page =
      MarketplaceRepository.GetAllTransactions db limit ((page - 1) * limit)
  ∧ (ServiceGetTransactions db limit page).1.length ≤ limit.toNat
  ∧ List.Pairwise (fun a b : MarketplaceTransaction => b.createdAt ≤ a.createdAt)
      (ServiceGetTransactions db limit page).1 := by
  have hres : (MarketplaceRepository.GetAll db
      { status := status, page := page, limit := limit }).1 =
      ((sortedFiltered db status).drop ((page - 1) * limit).toNat).take limit.toNat := rfl
  have hsorted : List.Pairwise (fun a b : Product => createdDescProd a b = true)
      (sortedFiltered db status) := by
    apply List.sorted_mergeSort
    · intro a b c hab hbc
      simp only [createdDescProd, decide_eq_true_eq] at hab hbc ⊢
      omega
    · intro a b
      simp only [createdDescProd]
      rcases Nat.le_total b.createdAt a.createdAt with h | h
      · simp [h]
      · simp [h]
  have htxres : (ServiceGetTransactions db limit page).1 =
      ((db.transactions.mergeSort createdDescTx).drop
        (((page - 1) * limit).toNat)).take limit.toNat := rfl
  have htxsorted : List.Pairwise (fun a b : MarketplaceTransaction => createdDescTx a b = true)
      (db.transactions.mergeSort createdDescTx) := by
    apply List.sorted_mergeSort
    · intro a b c hab hbc
      simp only [createdDescTx, decide_eq_true_eq] at hab hbc ⊢
      omega
    · intro a b
      simp only [createdDescTx]
      rcases Nat.le_total b.createdAt a.createdAt with h | h
      · simp [h]
      · simp [h]
  refine ⟨?_, ?_, ?_, ?_, rfl, ?_, ?_⟩
  · rw [hres]
    exact List.length_take_le _ _
  · rw [hres]
    refine List.Pairwise.imp ?_
      (List.Pairwise.sublist ((List.take_sublist _ _).trans (List.drop_sublist _ _)) hsorted)
    intro a b hab
    simpa [createdDescProd] using hab
  · intro hs
    exact getAll_mem_status db { status := status, page := page, limit := limit } hs
  · intro i hi
    rw [hres] at hi ⊢
    have hlen : (((sortedFiltered db status).drop ((page - 1) * limit).toNat).take
        limit.toNat).length =
        min limit.toNat ((sortedFiltered db status).length - ((page - 1) * limit).toNat) := by
      simp
    rw [hlen] at hi
    rw [List.getElem?_take_of_lt (by omega), List.getElem?_drop]
  · rw [htxres]
    exact List.length_take_le _ _
  · rw [htxres]
    refine List.Pairwise.imp ?_
      (List.Pairwise.sublist ((List.take_sublist _ _).trans (List.drop_sublist _ _)) htxsorted)
    intro a b hab
    simpa [createdDescTx] using hab

/-- Witness for C4 at concrete inputs: with two active products and
page=2, limit=1, the single returned item is row index 1 of the descending
ordering, and every returned product is active. -/
theorem C4_witness :
    (∀ p ∈ (MarketplaceRepository.GetAll sampleDb2
        { status := "active", page := 2, limit := 1 }).1, p.status = "active")
  ∧ (MarketplaceRepository.GetAll sampleDb2
        { status := "active", page := 2, limit := 1 }).1[0]? =
      (sortedFiltered sampleDb2 "active")[(((2 : Int) - 1) * 1).toNat + 0]? :=
  ⟨(C4_pagination sampleDb2 "active" 2 1).2.2.1 (by decide),
   (C4_pagination sampleDb2 "active" 2 1).2.2.2.1 0 (by
     have hl : (MarketplaceRepository.GetAll sampleDb2
         { status := "active", page := 2, limit := 1 }).1.length = 1 := by
       simp [MarketplaceRepository.GetAll, sampleDb2, sampleProduct, sampleProduct2]
     omega)⟩

/-- Unfolding of `AddToCart` when the (user, product) row exists. -/
theorem addToCart_eq_some (db : Db) (u p : Nat) (q : Int) (ex : CartItem)
    (h : db.cartItems.find? (fun r => r.userID == u && r.productID == p) = some ex) :
    MarketplaceRepository.AddToCart db u p q =
      { db with cartItems :=
          db.cartItems.map (fun r =>
            if r.id == ex.id then { r with quantity := ex.quantity + q } else r) } := by
  unfold MarketplaceRepository.AddToCart
  rw [h]

/-- Unfolding of `AddToCart` when no (user, product) row exists. -/
theorem addToCart_eq_none (db : Db) (u p : Nat) (q : Int)
    (h : db.cartItems.find? (fun r => r.userID == u && r.productID == p) = none) :
    MarketplaceRepository.AddToCart db u p q =
      { db with cartItems :=
          db.cartItems ++
            [{ id := MarketplaceRepository.nextCartId db, userID := u,
               productID := p, quantity := q }] } := by
  unfold MarketplaceRepository.AddToCart
  rw [h]

/-- The auto-increment cart id is fresh. -/
theorem nextCartId_notin (db : Db) (r : CartItem) (hr : r ∈ db.cartItems) :
    r.id ≠ MarketplaceRepository.nextCartId db := by
  have := cartId_le_fold db.cartItems r hr
  unfold MarketplaceRepository.nextCartId
  omega

/-- A pair-unique cart holds at most one row for a given (user, product). -/
theorem count_pair_le_one (l : List CartItem) (u p : Nat)
    (hn : (l.map (fun r => (r.userID, r.productID))).Nodup) :
    (l.filter (fun r => r.userID == u && r.productID == p)).length ≤ 1 := by
  induction l with
  | nil => simp
  | cons a t ih =>
    simp only [List.map_cons, List.nodup_cons] at hn
    rcases hn with ⟨hna, hnt⟩
    rw [List.filter_cons]
    by_cases hpa : (a.userID == u && a.productID == p) = true
    · rw [if_pos hpa]
      simp only [List.length_cons]
      have hnil : t.filter (fun r => r.userID == u && r.productID == p) = [] := by
        rw [List.filter_eq_nil_iff]
        intro b hb hpb
        apply hna
        rw [List.mem_map]
        refine ⟨b, hb, ?_⟩
        have h1 : a.userID = u ∧ a.productID = p := by simpa using hpa
        have h2 : b.userID = u ∧ b.productID = p := by simpa using hpb
        rw [h1.1, h1.2, h2.1, h2.2]
      rw [hnil]
      simp
    · rw [if_neg hpa]
      exact ih hnt

/-- `AddToCart` preserves cart well-formedness. -/
theorem addToCart_WF (db : Db) (u p : Nat) (q : Int) (hwf : CartWF db.cartItems) :
    CartWF (MarketplaceRepository.AddToCart db u p q).cartItems := by
  rcases hwf with ⟨hid, hpair⟩
  cases h : db.cartItems.find? (fun r => r.userID == u && r.productID == p) with
  | some ex =>
    rw [addToCart_eq_some db u p q ex h]
    constructor
    · have hm : (db.cartItems.map (fun r =>
          if r.id == ex.id then { r with quantity := ex.quantity + q } else r)).map
            CartItem.id = db.cartItems.map CartItem.id := by
        rw [List.map_map]
        apply List.map_congr_left
        intro r _
        by_cases hh : (r.id == ex.id) = true
        · simp [Function.comp, hh]
        · simp [Function.comp, hh]
      show ((db.cartItems.map fun r =>
          if r.id == ex.id then { r with quantity := ex.quantity + q } else r).map
            CartItem.id).Nodup
      rw [hm]
      exact hid
    · have hm : (db.cartItems.map (fun r =>
          if r.id == ex.id then { r with quantity := ex.quantity + q } else r)).map
            (fun r => (r.userID, r.productID)) =
          db.cartItems.map (fun r => (r.userID, r.productID)) := by
        rw [List.map_map]
        apply List.map_congr_left
        intro r _
        by_cases hh : (r.id == ex.id) = true
        · simp [Function.comp, hh]
        · simp [Function.comp, hh]
      show ((db.cartItems.map fun r =>
          if r.id == ex.id then { r with quantity := ex.quantity + q } else r).map
            (fun r => (r.userID, r.productID))).Nodup
      rw [hm]
      exact hpair
  | none =>
    rw [addToCart_eq_none db u p q h]
    rw [List.find?_eq_none] at h
    constructor
    · show ((db.cartItems ++
          [({ id := MarketplaceRepository.nextCartId db, userID := u,
              productID := p, quantity := q } : CartItem)]).map CartItem.id).Nodup
      rw [List.map_append, List.nodup_append]
      refine ⟨hid, by simp, ?_⟩
      intro x hx
      rcases List.mem_map.mp hx with ⟨r, hr, hrx⟩
      simp only [List.map_cons, List.map_nil]
      intro hmem
      have : x = MarketplaceRepository.nextCartId db := by simpa using hmem
      exact nextCartId_notin db r hr (by rw [hrx, this])
    · show ((db.cartItems ++
          [({ id := MarketplaceRepository.nextCartId db, userID := u,
              productID := p, quantity := q } : CartItem)]).map
            (fun r : CartItem => (r.userID, r.productID))).Nodup
      rw [List.map_append, List.nodup_append]
      refine ⟨hpair, by simp, ?_⟩
      intro x hx
      rcases List.mem_map.mp hx with ⟨r, hr, hrx⟩
      simp only [List.map_cons, List.map_nil]
      intro hmem
      have hx2 : x = (u, p) := by simpa using hmem
      have hpr := h r hr
      apply hpr
      have : r.userID = u ∧ r.productID = p := by
        have := hrx.trans hx2
        exact ⟨congrArg Prod.fst this, congrArg Prod.snd this⟩
      simp [this.1, this.2]

/-- C6: add-to-cart is an upsert — an existing (user, product) row gets its
quantity summed in place with no second row created, a missing row is
inserted once with the given quantity, well-formedness (at most one row per
(user, product)) is preserved, and adding q1 then q2 equals adding q1+q2
once. -/
theorem C6_cart_upsert (db : Db) (u p : Nat) (q1 q2 : Int) :
    (CartWF db.cartItems → CartWF (MarketplaceRepository.AddToCart db u p q1).cartItems)
  ∧ (CartWF db.cartItems →
      ((MarketplaceRepository.AddToCart db u p q1).cartItems.filter
        (fun r => r.userID == u && r.productID == p)).length ≤ 1)
  ∧ (∀ ex, db.cartItems.find? (fun r => r.userID == u && r.productID == p) = some ex →
      (MarketplaceRepository.AddToCart db u p q1).cartItems.length = db.cartItems.length
      ∧ (MarketplaceRepository.AddToCart db u p q1).cartItems.find?
          (fun r => r.userID == u && r.productID == p) =
            some { ex with quantity := ex.quantity + q1 }
      ∧ ∀ r ∈ db.cartItems, r.id ≠ ex.id →
            r ∈ (MarketplaceRepository.AddToCart db u p q1).cartItems)
  ∧ (db.cartItems.find? (fun r => r.userID == u && r.productID == p) = none →
      (MarketplaceRepository.AddToCart db u p q1).cartItems =
        db.cartItems ++ [{ id := MarketplaceRepository.nextCartId db, userID := u,
                           productID := p, quantity := q1 }])
  ∧ MarketplaceRepository.AddToCart (MarketplaceRepository.AddToCart db u p q1) u p q2 =
      MarketplaceRepository.AddToCart db u p (q1 + q2) := by
  refine ⟨addToCart_WF db u p q1, ?_, ?_, ?_, ?_⟩
  · intro hwf
    exact count_pair_le_one _ u p (addToCart_WF db u p q1 hwf).2
  · intro ex hex
    have hexpred : (ex.userID == u && ex.productID == p) = true :=
      List.find?_some (p := fun r : CartItem => r.userID == u && r.productID == p) hex
    rw [addToCart_eq_some db u p q1 ex hex]
    refine ⟨by simp, ?_, ?_⟩
    · show (db.cartItems.map fun r =>
          if r.id == ex.id then { r with quantity := ex.quantity + q1 } else r).find?
          (fun r => r.userID == u && r.productID == p) =
          some { ex with quantity := ex.quantity + q1 }
      rw [find?_map_pres]
      · rw [hex]
        simp only [Option.map_some']
        rw [if_pos (by simp)]
      · intro r
        by_cases hh : (r.id == ex.id) = true
        · rw [if_pos hh]
        · rw [if_neg hh]
    · intro r hr hrid
      have hf : (if r.id == ex.id then { r with quantity := ex.quantity + q1 } else r) = r := by
        rw [if_neg (by simpa using hrid)]
      have hmm := List.mem_map_of_mem
        (f := fun r : CartItem =>
          if r.id == ex.id then { r with quantity := ex.quantity + q1 } else r) hr
      simp only at hmm
      rw [hf] at hmm
      exact hmm
  · intro hnone
    rw [addToCart_eq_none db u p q1 hnone]
  · cases h : db.cartItems.find? (fun r => r.userID == u && r.productID == p) with
    | some ex =>
      have hfex : (if ex.id == ex.id then { ex with quantity := ex.quantity + q1 } else ex)
          = { ex with quantity := ex.quantity + q1 } := by
        rw [if_pos (by simp)]
      have hfind2 : ((MarketplaceRepository.AddToCart db u p q1).cartItems.find?
          (fun r => r.userID == u && r.productID == p)) =
          some { ex with quantity := ex.quantity + q1 } := by
        rw [addToCart_eq_some db u p q1 ex h]
        show (db.cartItems.map fun r =>
            if r.id == ex.id then { r with quantity := ex.quantity + q1 } else r).find?
            (fun r => r.userID == u && r.productID == p) = _
        rw [find?_map_pres]
        · rw [h]
          simp only [Option.map_some']
          rw [hfex]
        · intro r
          by_cases hh : (r.id == ex.id) = true
          · rw [if_pos hh]
          · rw [if_neg hh]
      rw [addToCart_eq_some (MarketplaceRepository.AddToCart db u p q1) u p q2 _ hfind2,
          addToCart_eq_some db u p q1 ex h,
          addToCart_eq_some db u p (q1 + q2) ex h]
      congr 1
      rw [List.map_map]
      apply List.map_congr_left
      intro r _
      rcases Bool.eq_false_or_eq_true (r.id == ex.id) with hh | hh <;>
        simp [Function.comp, hh, Int.add_assoc]
    | none =>
      have hfind1 : (MarketplaceRepository.AddToCart db u p q1).cartItems.find?
          (fun r => r.userID == u && r.productID == p) =
          some { id := MarketplaceRepository.nextCartId db, userID := u,
                 productID := p, quantity := q1 } := by
        rw [addToCart_eq_none db u p q1 h]
        show (db.cartItems ++
            [({ id := MarketplaceRepository.nextCartId db, userID := u,
                productID := p, quantity := q1 } : CartItem)]).find?
            (fun r : CartItem => r.userID == u && r.productID == p) = _
        rw [List.find?_append, h]
        simp
      rw [addToCart_eq_some (MarketplaceRepository.AddToCart db u p q1) u p q2 _ hfind1,
          addToCart_eq_none db u p q1 h,
          addToCart_eq_none db u p (q1 + q2) h]
      congr 1
      rw [List.map_append]
      congr 1
      · rw [List.map_congr_left (g := id) ?_, List.map_id]
        intro r hr
        have hne : (r.id == MarketplaceRepository.nextCartId db) = false := by
          simpa using nextCartId_notin db r hr
        simp [hne]
      · simp

/-- Witness for C6 at concrete inputs: re-adding product 1 to user 1's cart
sums the quantity in one row; a first add for user 2 appends one row; adding
4 then 5 equals adding 9 once. -/
theorem C6_witness :
    CartWF (MarketplaceRepository.AddToCart sampleDbCart 1 1 4).cartItems
  ∧ (MarketplaceRepository.AddToCart sampleDbCart 1 1 4).cartItems.length =
      sampleDbCart.cartItems.length
  ∧ (MarketplaceRepository.AddToCart sampleDbCart 2 1 4).cartItems =
      sampleDbCart.cartItems ++
        [{ id := MarketplaceRepository.nextCartId sampleDbCart, userID := 2,
           productID := 1, quantity := 4 }]
  ∧ MarketplaceRepository.AddToCart (MarketplaceRepository.AddToCart sampleDbCart 1 1 4) 1 1 5 =
      MarketplaceRepository.AddToCart sampleDbCart 1 1 (4 + 5) :=
  ⟨(C6_cart_upsert sampleDbCart 1 1 4 5).1 (by constructor <;> decide),
   ((C6_cart_upsert sampleDbCart 1 1 4 5).2.2.1
      { id := 3, userID := 1, productID := 1, quantity := 2 } rfl).1,
   (C6_cart_upsert sampleDbCart 2 1 4 5).2.2.2.1 rfl,
   (C6_cart_upsert sampleDbCart 1 1 4 5).2.2.2.2⟩

/-- Committing branch of the transaction wrapper. -/
theorem runTx_ok (body : Db → Except String Db) (db d : Db) (h : body db = .ok d) :
    runTx body db = (.ok (), d) := by
  unfold runTx
  rw [h]

/-- Rollback branch of the transaction wrapper. -/
theorem runTx_error (body : Db → Except String Db) (db : Db) (e : String)
    (h : body db = .error e) : runTx body db = (.error e, db) := by
  unfold runTx
  rw [h]

/-- Case analysis of the purchase transaction body: either some step failed,
or every guard held and all three writes were applied in order. -/
theorem purchaseBody_cases (fails : Nat → Bool) (db : Db) (u pid : Nat)
    (q : Int) (now : Nat) :
    (∃ e, PurchaseBody fails db u pid q now = .error e) ∨
    (∃ p w, db.products.find? (fun x => x.id == pid) = some p
      ∧ findWalletByUserID db u = some w
      ∧ q ≤ p.stock ∧ p.price * q ≤ w.balance
      ∧ PurchaseBody fails db u pid q now =
          .ok (MarketplaceRepository.CreateTransaction
            (MarketplaceRepository.UpdateStock (debitWallet db w.id (p.price * q))
              pid (-q)) w.id pid q (p.price * q) now)) := by
  cases hp : db.products.find? (fun x => x.id == pid) with
  | none => exact .inl ⟨"product not found", by unfold PurchaseBody; simp [hp]⟩
  | some p =>
    by_cases hstock : p.stock < q
    · exact .inl ⟨"insufficient stock", by unfold PurchaseBody; simp [hp, hstock]⟩
    · cases hw : findWalletByUserID db u with
      | none =>
        exact .inl ⟨"wallet not found", by unfold PurchaseBody; simp [hp, hstock, hw]⟩
      | some w =>
        by_cases hbal : w.balance < p.price * q
        · exact .inl ⟨"insufficient balance", by
            unfold PurchaseBody
            simp [hp, hstock, hw, hbal]⟩
        · by_cases h0 : fails 0 = true
          · exact .inl ⟨"storage error", by
              unfold PurchaseBody tryWrite
              simp [hp, hstock, hw, hbal, h0]⟩
          · by_cases h1 : fails 1 = true
            · exact .inl ⟨"storage error", by
                unfold PurchaseBody tryWrite
                simp [hp, hstock, hw, hbal, h0, h1]⟩
            · by_cases h2 : fails 2 = true
              · exact .inl ⟨"storage error", by
                  unfold PurchaseBody tryWrite
                  simp [hp, hstock, hw, hbal, h0, h1, h2]⟩
              · refine .inr ⟨p, w, rfl, rfl, by omega, by omega, ?_⟩
                unfold PurchaseBody tryWrite
                simp [hp, hstock, hw, hbal, h0, h1, h2]

/-- Case analysis of the checkout transaction body: either some step failed,
or it committed with the user's cart cleared as the final write. -/
theorem checkoutBody_cases (fails : Nat → Bool) (db : Db) (u : Nat) (now : Nat) :
    (∃ e, CheckoutBody fails db u now = .error e) ∨
    (∃ w totalCost db2 i2,
        checkoutLines db (MarketplaceRepository.GetCart db u) = .ok totalCost
      ∧ findWalletByUserID db u = some w
      ∧ applyLines fails 1 w.id now (MarketplaceRepository.GetCart db u)
          (debitWallet db w.id totalCost) = .ok (db2, i2)
      ∧ CheckoutBody fails db u now = .ok (MarketplaceRepository.ClearCart db2 u)) := by
  by_cases hempty : (MarketplaceRepository.GetCart db u).isEmpty
  · exact .inl ⟨"cart is empty", by unfold CheckoutBody; simp [hempty]⟩
  · cases hlines : checkoutLines db (MarketplaceRepository.GetCart db u) with
    | error e => exact .inl ⟨e, by unfold CheckoutBody; simp [hempty, hlines]⟩
    | ok totalCost =>
      cases hw : findWalletByUserID db u with
      | none =>
        exact .inl ⟨"wallet not found", by
          unfold CheckoutBody
          simp [hempty, hlines, hw]⟩
      | some w =>
        by_cases hbal : w.balance < totalCost
        · exact .inl ⟨"insufficient balance", by
            unfold CheckoutBody
            simp [hempty, hlines, hw, hbal]⟩
        · by_cases h0 : fails 0 = true
          · exact .inl ⟨"storage error", by
              unfold CheckoutBody tryWrite
              simp [hempty, hlines, hw, hbal, h0]⟩
          · cases happ : applyLines fails 1 w.id now (MarketplaceRepository.GetCart db u)
                (debitWallet db w.id totalCost) with
            | error e =>
              exact .inl ⟨e, by
                unfold CheckoutBody tryWrite
                simp [hempty, hlines, hw, hbal, h0, happ]⟩
            | ok res =>
              obtain ⟨db2, i2⟩ := res
              by_cases h2 : fails i2 = true
              · exact .inl ⟨"storage error", by
                  unfold CheckoutBody tryWrite
                  simp [hempty, hlines, hw, hbal, h0, happ, h2]⟩
              · refine .inr ⟨w, totalCost, db2, i2, rfl, rfl, happ, ?_⟩
                unfold CheckoutBody tryWrite
                simp [hempty, hlines, hw, hbal, h0, happ, h2]

/-- C1: purchase and cart checkout are atomic — under any fault oracle, a
failing run leaves the entire database (products, cart, wallets, ledger)
exactly as it was, and a successful purchase commits the wallet debit, the
stock decrement and the ledger append together; a successful checkout also
ends with the user's cart cleared. -/
theorem C1_purchase_checkout_atomic (fails : Nat → Bool) (db : Db) (u pid : Nat)
    (q : Int) (now : Nat) :
    ((∃ e, (ServicePurchase fails db u pid q now).1 = .error e) →
        (ServicePurchase fails db u pid q now).2 = db)
  ∧ ((ServicePurchase fails db u pid q now).1 = .ok () →
        ∃ p w, db.products.find? (fun x => x.id == pid) = some p
          ∧ findWalletByUserID db u = some w
          ∧ (ServicePurchase fails db u pid q now).2 =
              MarketplaceRepository.CreateTransaction
                (MarketplaceRepository.UpdateStock (debitWallet db w.id (p.price * q))
                  pid (-q)) w.id pid q (p.price * q) now)
  ∧ ((∃ e, (ServiceCheckout fails db u now).1 = .error e) →
        (ServiceCheckout fails db u now).2 = db)
  ∧ ((ServiceCheckout fails db u now).1 = .ok () →
        MarketplaceRepository.GetCart (ServiceCheckout fails db u now).2 u = []) := by
  refine ⟨?_, ?_, ?_, ?_⟩
  · rintro ⟨e, he⟩
    cases hb : PurchaseBody fails db u pid q now with
    | ok d =>
      unfold ServicePurchase at he
      rw [runTx_ok (fun d => PurchaseBody fails d u pid q now) db d hb] at he
      simp at he
    | error e2 =>
      unfold ServicePurchase
      rw [runTx_error (fun d => PurchaseBody fails d u pid q now) db e2 hb]
  · intro hok
    rcases purchaseBody_cases fails db u pid q now with ⟨e, he⟩ | ⟨p, w, hp, hw, _, _, hbody⟩
    · unfold ServicePurchase at hok
      rw [runTx_error (fun d => PurchaseBody fails d u pid q now) db e he] at hok
      simp at hok
    · refine ⟨p, w, hp, hw, ?_⟩
      unfold ServicePurchase
      rw [runTx_ok (fun d => PurchaseBody fails d u pid q now) db _ hbody]
  · rintro ⟨e, he⟩
    cases hb : CheckoutBody fails db u now with
    | ok d =>
      unfold ServiceCheckout at he
      rw [runTx_ok (fun d => CheckoutBody fails d u now) db d hb] at he
      simp at he
    | error e2 =>
      unfold ServiceCheckout
      rw [runTx_error (fun d => CheckoutBody fails d u now) db e2 hb]
  · intro hok
    rcases checkoutBody_cases fails db u now with ⟨e, he⟩ | ⟨w, tc, db2, i2, _, _, _, hbody⟩
    · unfold ServiceCheckout at hok
      rw [runTx_error (fun d => CheckoutBody fails d u now) db e he] at hok
      simp at hok
    · unfold ServiceCheckout
      rw [runTx_ok (fun d => CheckoutBody fails d u now) db _ hbody]
      exact getCart_clearCart db2 u

/-- Witness for C1 at concrete inputs: an over-stock purchase and an
empty-cart checkout leave the sample database untouched; a valid purchase
commits all three writes. -/
theorem C1_witness :
    (ServicePurchase noFail sampleDb 1 1 9 99).2 = sampleDb
  ∧ (ServiceCheckout noFail sampleDb 1 99).2 = sampleDb
  ∧ ∃ p w, sampleDb.products.find? (fun x => x.id == 1) = some p
      ∧ findWalletByUserID sampleDb 1 = some w
      ∧ (ServicePurchase noFail sampleDb 1 1 2 99).2 =
          MarketplaceRepository.CreateTransaction
            (MarketplaceRepository.UpdateStock (debitWallet sampleDb w.id (p.price * 2))
              1 (-2)) w.id 1 2 (p.price * 2) 99 :=
  ⟨(C1_purchase_checkout_atomic noFail sampleDb 1 1 9 99).1 ⟨"insufficient stock", rfl⟩,
   (C1_purchase_checkout_atomic noFail sampleDb 1 1 9 99).2.2.1 ⟨"cart is empty", rfl⟩,
   (C1_purchase_checkout_atomic noFail sampleDb 1 1 2 99).2.1 rfl⟩

/-- The first row matched by id is the only row with that id when ids are
unique. -/
theorem find?_id_unique {l : List Product} (hids : (l.map Product.id).Nodup)
    {pid : Nat} {p : Product} (hp : l.find? (fun x => x.id == pid) = some p)
    {r : Product} (hr : r ∈ l) (hrid : r.id = pid) : r = p := by
  have hpmem := List.mem_of_find?_eq_some hp
  have hppred : (p.id == pid) = true :=
    List.find?_some (p := fun x : Product => x.id == pid) hp
  have hpid : p.id = pid := by simpa using hppred
  exact List.inj_on_of_nodup_map hids hr hpmem (by rw [hrid, hpid])

/-- A successful checkout validation pass bounds every cart line by the
stock of its product row in the starting state. -/
theorem checkoutLines_bound (db : Db) :
    ∀ (items : List CartItem) (c : Int), checkoutLines db items = .ok c →
      ∀ item ∈ items,
        ∃ p, db.products.find? (fun x => x.id == item.productID) = some p
          ∧ item.quantity ≤ p.stock := by
  intro items
  induction items with
  | nil =>
    intro c _ item hmem
    cases hmem
  | cons it rest ih =>
    intro c h item hmem
    unfold checkoutLines at h
    cases hf : db.products.find? (fun x => x.id == it.productID) with
    | none =>
      simp only [hf] at h
      exact (Except.noConfusion h)
    | some pr =>
      simp only [hf] at h
      by_cases hstock : pr.stock < it.quantity
      · simp [hstock] at h
      · rw [if_neg hstock] at h
        cases hrest : checkoutLines db rest with
        | error e =>
          simp only [hrest] at h
          exact (Except.noConfusion h)
        | ok rc =>
          rcases List.mem_cons.mp hmem with rfl | hmem2
          · exact ⟨pr, hf, by omega⟩
          · exact ih rc hrest item hmem2

/-- The checkout write pass keeps every stock nonnegative when the lines
were validated against the starting products and name distinct products. -/
theorem applyLines_nonneg (fails : Nat → Bool) (walletID now : Nat) :
    ∀ (items : List CartItem) (idx : Nat) (dbc : Db) (res : Db × Nat),
      applyLines fails idx walletID now items dbc = .ok res →
      (items.map CartItem.productID).Nodup →
      (∀ r ∈ dbc.products, 0 ≤ r.stock) →
      (∀ item ∈ items, ∀ r ∈ dbc.products, r.id = item.productID →
          item.quantity ≤ r.stock) →
      ∀ r ∈ res.1.products, 0 ≤ r.stock := by
  intro items
  induction items with
  | nil =>
    intro idx dbc res h _ hnn _
    unfold applyLines at h
    injection h with h2
    subst h2
    exact hnn
  | cons it rest ih =>
    intro idx dbc res h hnodup hnn hbound
    simp only [List.map_cons, List.nodup_cons] at hnodup
    obtain ⟨hnotin, hnodup2⟩ := hnodup
    unfold applyLines tryWrite at h
    cases hf : dbc.products.find? (fun x => x.id == it.productID) with
    | none =>
      simp only [hf] at h
      exact (Except.noConfusion h)
    | some pr =>
      simp only [hf] at h
      by_cases hi0 : fails idx = true
      · simp [hi0] at h
      · by_cases hi1 : fails (idx + 1) = true
        · simp [hi0, hi1] at h
        · simp only [hi0, hi1, Bool.false_eq_true, if_false, if_neg] at h
          refine ih _ _ _ h hnodup2 ?_ ?_
          · intro r hr
            have hr2 : r ∈ (MarketplaceRepository.UpdateStock dbc it.productID
                (-it.quantity)).products := hr
            rcases List.mem_map.mp hr2 with ⟨r0, hr0, hfr⟩
            by_cases hc : (r0.id == it.productID) = true
            · rw [if_pos hc] at hfr
              have hq : it.quantity ≤ r0.stock :=
                hbound it (List.mem_cons_self _ _) r0 hr0 (by simpa using hc)
              rw [← hfr]
              show 0 ≤ r0.stock + -it.quantity
              omega
            · rw [if_neg hc] at hfr
              rw [← hfr]
              exact hnn r0 hr0
          · intro item hitem r hr hrid
            have hr2 : r ∈ (MarketplaceRepository.UpdateStock dbc it.productID
                (-it.quantity)).products := hr
            rcases List.mem_map.mp hr2 with ⟨r0, hr0, hfr⟩
            by_cases hc : (r0.id == it.productID) = true
            · exfalso
              have hid0 : r.id = r0.id := by
                rw [← hfr, if_pos hc]
              have hc0 : r0.id = it.productID := by simpa using hc
              apply hnotin
              have heq : item.productID = it.productID := by
                rw [← hrid, hid0, hc0]
              rw [← heq]
              exact List.mem_map_of_mem (f := CartItem.productID) hitem
            · rw [if_neg hc] at hfr
              have hrid0 : r0.id = item.productID := by rw [hfr]; exact hrid
              have := hbound item (List.mem_cons_of_mem _ hitem) r0 hr0 hrid0
              rw [← hfr]
              exact this

/-- C2: a purchase of quantity q against stock s decrements the stock to
s − q exactly when it succeeds, fails outright with `insufficient stock`
and no state change when q > s, and the purchase/checkout engine never
drives any stock negative. -/
theorem C2_stock_never_negative (fails : Nat → Bool) (db : Db) (u pid : Nat)
    (q : Int) (now : Nat) (p : Product)
    (hp : db.products.find? (fun x => x.id == pid) = some p)
    (hids : (db.products.map Product.id).Nodup) :
    ((ServicePurchase fails db u pid q now).1 = .ok () →
      ∃ p2, (ServicePurchase fails db u pid q now).2.products.find?
          (fun x => x.id == pid) = some p2
        ∧ p2.stock = p.stock - q ∧ p2.price = p.price ∧ p2.name = p.name
        ∧ p2.status = p.status)
  ∧ (p.stock < q →
      (ServicePurchase fails db u pid q now).1 = .error "insufficient stock"
      ∧ (ServicePurchase fails db u pid q now).2 = db)
  ∧ ((∀ r ∈ db.products, 0 ≤ r.stock) →
      ∀ r ∈ (ServicePurchase fails db u pid q now).2.products, 0 ≤ r.stock)
  ∧ ((∀ r ∈ db.products, 0 ≤ r.stock) →
      ((MarketplaceRepository.GetCart db u).map CartItem.productID).Nodup →
      ∀ r ∈ (ServiceCheckout fails db u now).2.products, 0 ≤ r.stock) := by
  have hppred : (p.id == pid) = true :=
    List.find?_some (p := fun x : Product => x.id == pid) hp
  refine ⟨?_, ?_, ?_, ?_⟩
  · intro hok
    rcases purchaseBody_cases fails db u pid q now with
      ⟨e, he⟩ | ⟨p3, w, hp3, hw, hqle, _, hbody⟩
    · unfold ServicePurchase at hok
      rw [runTx_error (fun d => PurchaseBody fails d u pid q now) db e he] at hok
      simp at hok
    · have hpp : p3 = p := by
        rw [hp] at hp3
        injection hp3 with h2
        exact h2.symm
      subst hpp
      unfold ServicePurchase
      rw [runTx_ok (fun d => PurchaseBody fails d u pid q now) db _ hbody]
      have hfind : (MarketplaceRepository.CreateTransaction
          (MarketplaceRepository.UpdateStock (debitWallet db w.id (p3.price * q)) pid (-q))
          w.id pid q (p3.price * q) now).products.find? (fun x => x.id == pid)
          = some { p3 with stock := p3.stock + -q } := by
        show ((debitWallet db w.id (p3.price * q)).products.map fun r =>
            if r.id == pid then { r with stock := r.stock + -q } else r).find?
            (fun x => x.id == pid) = _
        rw [find?_map_pres]
        · show (db.products.find? (fun x => x.id == pid)).map _ = _
          rw [hp]
          simp only [Option.map_some']
          rw [if_pos hppred]
        · intro r
          by_cases hh : (r.id == pid) = true
          · rw [if_pos hh]
          · rw [if_neg hh]
      refine ⟨{ p3 with stock := p3.stock + -q }, hfind, ?_, rfl, rfl, rfl⟩
      show p3.stock + -q = p3.stock - q
      omega
  · intro hstock
    have hbody : PurchaseBody fails db u pid q now = .error "insufficient stock" := by
      unfold PurchaseBody
      simp [hp, hstock]
    constructor
    · unfold ServicePurchase
      rw [runTx_error (fun d => PurchaseBody fails d u pid q now) db _ hbody]
    · unfold ServicePurchase
      rw [runTx_error (fun d => PurchaseBody fails d u pid q now) db _ hbody]
  · intro hnn
    rcases purchaseBody_cases fails db u pid q now with
      ⟨e, he⟩ | ⟨p3, w, hp3, hw, hqle, _, hbody⟩
    · unfold ServicePurchase
      rw [runTx_error (fun d => PurchaseBody fails d u pid q now) db e he]
      exact hnn
    · have hpp : p3 = p := by
        rw [hp] at hp3
        injection hp3 with h2
        exact h2.symm
      subst hpp
      unfold ServicePurchase
      rw [runTx_ok (fun d => PurchaseBody fails d u pid q now) db _ hbody]
      intro r hr
      have hr2 : r ∈ (MarketplaceRepository.UpdateStock
          (debitWallet db w.id (p3.price * q)) pid (-q)).products := hr
      rcases List.mem_map.mp hr2 with ⟨r0, hr0, hfr⟩
      have hr0db : r0 ∈ db.products := hr0
      by_cases hc : (r0.id == pid) = true
      · have hq : r0 = p3 := find?_id_unique hids hp hr0db (by simpa using hc)
        subst hq
        rw [if_pos hc] at hfr
        rw [← hfr]
        show 0 ≤ r0.stock + -q
        omega
      · rw [if_neg hc] at hfr
        rw [← hfr]
        exact hnn r0 hr0db
  · intro hnn hcart
    rcases checkoutBody_cases fails db u now with
      ⟨e, he⟩ | ⟨w, tc, db2, i2, hlines, hw, happ, hbody⟩
    · unfold ServiceCheckout
      rw [runTx_error (fun d => CheckoutBody fails d u now) db e he]
      exact hnn
    · unfold ServiceCheckout
      rw [runTx_ok (fun d => CheckoutBody fails d u now) db _ hbody]
      intro r hr
      have hr2 : r ∈ db2.products := hr
      refine applyLines_nonneg fails w.id now (MarketplaceRepository.GetCart db u) 1
        (debitWallet db w.id tc) (db2, i2) happ hcart ?_ ?_ r hr2
      · intro r1 hr1
        exact hnn r1 hr1
      · intro item hitem r1 hr1 hrid1
        rcases checkoutLines_bound db (MarketplaceRepository.GetCart db u) tc hlines
          item hitem with ⟨pp, hppf, hqq⟩
        have hr1db : r1 ∈ db.products := hr1
        have heq : r1 = pp := find?_id_unique hids hppf hr1db hrid1
        rw [heq]
        exact hqq

/-- Witness for C2 at concrete inputs: buying 2 of the stock-5 product
leaves stock 3; buying 9 fails with unchanged state; stocks stay
nonnegative after a purchase and a cart checkout. -/
theorem C2_witness :
    (∃ p2, (ServicePurchase noFail sampleDb 1 1 2 99).2.products.find?
        (fun x => x.id == 1) = some p2 ∧ p2.stock = sampleProduct.stock - 2
      ∧ p2.price = sampleProduct.price ∧ p2.name = sampleProduct.name
      ∧ p2.status = sampleProduct.status)
  ∧ (ServicePurchase noFail sampleDb 1 1 9 99).1 = .error "insufficient stock"
  ∧ (ServicePurchase noFail sampleDb 1 1 9 99).2 = sampleDb
  ∧ (∀ r ∈ (ServicePurchase noFail sampleDb 1 1 2 99).2.products, 0 ≤ r.stock)
  ∧ (∀ r ∈ (ServiceCheckout noFail sampleDbCart 1 99).2.products, 0 ≤ r.stock) :=
  ⟨(C2_stock_never_negative noFail sampleDb 1 1 2 99 sampleProduct rfl (by decide)).1 rfl,
   ((C2_stock_never_negative noFail sampleDb 1 1 9 99 sampleProduct rfl (by decide)).2.1
      (by decide)).1,
   ((C2_stock_never_negative noFail sampleDb 1 1 9 99 sampleProduct rfl (by decide)).2.1
      (by decide)).2,
   (C2_stock_never_negative noFail sampleDb 1 1 2 99 sampleProduct rfl (by decide)).2.2.1
      (by decide),
   (C2_stock_never_negative noFail sampleDbCart 1 1 2 99 sampleProduct rfl
      (by decide)).2.2.2 (by decide) (by decide)⟩

/-- C5 as stated is false on the code: this successful add-to-cart request
mutates the cart yet emits zero audit records rather than exactly one. -/
theorem C5_counterexample :
    (MarketplaceHandler.AddToCart sampleDb sampleCtx 1 2).status = 200
  ∧ (MarketplaceHandler.AddToCart sampleDb sampleCtx 1 2).db ≠ sampleDb
  ∧ (MarketplaceHandler.AddToCart sampleDb sampleCtx 1 2).audits.length = 0 :=
  ⟨rfl, by decide, rfl⟩

/-- C5 amended: product create/update/delete, purchase, and cart checkout
emit exactly one audit record (actor id, action, entity, entity id, detail,
caller IP, user agent) when they succeed and none when they fail, while
cart add/update/remove emit no audit record at all. -/
theorem C5_audit_records (fails : Nat → Bool) (db : Db) (ctx : ReqCtx)
    (nm ds idParam : String) (price stock q : Int) (st : String)
    (upd : MarketplaceRepository.ProductUpdates) (pid now : Nat) :
    (MarketplaceHandler.Create db ctx nm ds price stock st now).audits.length = 1
  ∧ ((MarketplaceHandler.Update db ctx idParam upd).status = 200 →
      (MarketplaceHandler.Update db ctx idParam upd).audits.length = 1)
  ∧ ((MarketplaceHandler.Update db ctx idParam upd).status ≠ 200 →
      (MarketplaceHandler.Update db ctx idParam upd).audits = [])
  ∧ ((MarketplaceHandler.Delete db ctx idParam).status = 200 →
      (MarketplaceHandler.Delete db ctx idParam).audits.length = 1)
  ∧ ((MarketplaceHandler.Purchase fails db ctx pid q now).status = 200 →
      (MarketplaceHandler.Purchase fails db ctx pid q now).audits =
        [{ userID := ctx.userID, action := "PURCHASE_PRODUCT", entity := "PRODUCT",
           entityID := pid,
           details := "User purchased units of product ID " ++ toString pid,
           ipAddress := ctx.clientIP, userAgent := ctx.userAgent }])
  ∧ ((MarketplaceHandler.Checkout fails db ctx now).status = 200 →
      (MarketplaceHandler.Checkout fails db ctx now).audits =
        [{ userID := ctx.userID, action := "CART_CHECKOUT", entity := "WALLET",
           entityID := ctx.userID, details := "User completed checkout from cart",
           ipAddress := ctx.clientIP, userAgent := ctx.userAgent }])
  ∧ (MarketplaceHandler.AddToCart db ctx pid q).audits = []
  ∧ (MarketplaceHandler.UpdateCartItem db ctx idParam q).audits = []
  ∧ (MarketplaceHandler.RemoveFromCart db ctx idParam).audits = [] := by
  refine ⟨rfl, ?_, ?_, ?_, ?_, ?_, rfl, rfl, rfl⟩
  · intro hst
    unfold MarketplaceHandler.Update at hst ⊢
    cases hparse : parseUint32 idParam with
    | error e =>
      simp only [hparse] at hst
      exact absurd hst (by decide)
    | ok pid2 =>
      simp only [hparse] at hst ⊢
      cases hsrv : ServiceUpdateProduct db pid2 upd with
      | error e =>
        simp only [hsrv] at hst
        by_cases he : (e == "product not found") = true
        · simp [he] at hst
        · simp [he] at hst
      | ok pdb =>
        simp only [hsrv]
        rfl
  · intro hst
    unfold MarketplaceHandler.Update at hst ⊢
    cases hparse : parseUint32 idParam with
    | error e =>
      simp only [hparse] at hst ⊢
    | ok pid2 =>
      simp only [hparse] at hst ⊢
      cases hsrv : ServiceUpdateProduct db pid2 upd with
      | error e =>
        simp only [hsrv] at hst ⊢
      | ok pdb =>
        simp only [hsrv] at hst
        exact absurd rfl hst
  · intro hst
    unfold MarketplaceHandler.Delete at hst ⊢
    cases hparse : parseUint32 idParam with
    | error e =>
      simp only [hparse] at hst
      exact absurd hst (by decide)
    | ok pid2 =>
      simp only [hparse] at hst ⊢
      cases hsrv : ServiceDeleteProduct db pid2 with
      | error e =>
        simp only [hsrv] at hst
        by_cases he : (e == "product not found") = true
        · simp [he] at hst
        · simp [he] at hst
      | ok db2 =>
        simp only [hsrv]
        rfl
  · intro hst
    unfold MarketplaceHandler.Purchase at hst ⊢
    cases hs : ServicePurchase fails db ctx.userID pid q now with
    | mk fst db2 =>
      cases fst with
      | error e =>
        rw [hs] at hst
        simp at hst
      | ok uu =>
        rfl
  · intro hst
    unfold MarketplaceHandler.Checkout at hst ⊢
    cases hs : ServiceCheckout fails db ctx.userID now with
    | mk fst db2 =>
      cases fst with
      | error e =>
        rw [hs] at hst
        simp at hst
      | ok uu =>
        rfl

/-- Witness for the amended C5 at concrete inputs: each audited handler
emits exactly one record on success, and add-to-cart emits none. -/
theorem C5_witness :
    (MarketplaceHandler.Create sampleDb sampleCtxAdmin "cap" "red cap" 10 3
        "active" 50).audits.length = 1
  ∧ (MarketplaceHandler.Update sampleDb sampleCtxAdmin "1"
        { name := none, description := none, price := none, stock := none,
          status := none }).audits.length = 1
  ∧ (MarketplaceHandler.Delete sampleDb sampleCtxAdmin "1").audits.length = 1
  ∧ (MarketplaceHandler.Purchase noFail sampleDb sampleCtx 1 2 99).audits =
      [{ userID := sampleCtx.userID, action := "PURCHASE_PRODUCT", entity := "PRODUCT",
         entityID := 1, details := "User purchased units of product ID " ++ toString 1,
         ipAddress := sampleCtx.clientIP, userAgent := sampleCtx.userAgent }]
  ∧ (MarketplaceHandler.Checkout noFail sampleDbCart sampleCtx 99).audits =
      [{ userID := sampleCtx.userID, action := "CART_CHECKOUT", entity := "WALLET",
         entityID := sampleCtx.userID, details := "User completed checkout from cart",
         ipAddress := sampleCtx.clientIP, userAgent := sampleCtx.userAgent }]
  ∧ (MarketplaceHandler.AddToCart sampleDb sampleCtx 1 2).audits = [] :=
  ⟨(C5_audit_records noFail sampleDb sampleCtxAdmin "cap" "red cap" "1" 10 3 2 "active"
      { name := none, description := none, price := none, stock := none, status := none }
      1 50).1,
   (C5_audit_records noFail sampleDb sampleCtxAdmin "cap" "red cap" "1" 10 3 2 "active"
      { name := none, description := none, price := none, stock := none, status := none }
      1 50).2.1 rfl,
   (C5_audit_records noFail sampleDb sampleCtxAdmin "cap" "red cap" "1" 10 3 2 "active"
      { name := none, description := none, price := none, stock := none, status := none }
      1 50).2.2.2.1 rfl,
   (C5_audit_records noFail sampleDb sampleCtx "cap" "red cap" "1" 10 3 2 "active"
      { name := none, description := none, price := none, stock := none, status := none }
      1 99).2.2.2.2.1 rfl,
   (C5_audit_records noFail sampleDbCart sampleCtx "cap" "red cap" "1" 10 3 2 "active"
      { name := none, description := none, price := none, stock := none, status := none }
      1 99).2.2.2.2.2.1 rfl,
   (C5_audit_records noFail sampleDb sampleCtx "cap" "red cap" "1" 10 3 2 "active"
      { name := none, description := none, price := none, stock := none, status := none }
      1 99).2.2.2.2.2.2.1⟩

/-- C7: deleting a product flips its status to `inactive` and nothing else —
the row keeps every other field, every other product row is untouched, the
other tables are untouched, the product disappears from active-only
listings, and it is still returned by get-by-id. -/
theorem C7_soft_delete (db : Db) (pid : Nat) (p : Product)
    (hp : db.products.find? (fun x => x.id == pid) = some p)
    (page limit : Int) :
    MarketplaceRepository.FindByID (MarketplaceRepository.Delete db pid) pid =
      .ok { p with status := "inactive" }
  ∧ (∀ q ∈ db.products, q.id ≠ pid → q ∈ (MarketplaceRepository.Delete db pid).products)
  ∧ (∀ q ∈ (MarketplaceRepository.Delete db pid).products, q.id ≠ pid → q ∈ db.products)
  ∧ (∀ q ∈ db.products, q.id = pid →
      { q with status := "inactive" } ∈ (MarketplaceRepository.Delete db pid).products)
  ∧ (∀ q ∈ (MarketplaceRepository.GetAll (MarketplaceRepository.Delete db pid)
        { status := "active", page := page, limit := limit }).1, q.id ≠ pid)
  ∧ (MarketplaceRepository.Delete db pid).cartItems = db.cartItems
  ∧ (MarketplaceRepository.Delete db pid).wallets = db.wallets
  ∧ (MarketplaceRepository.Delete db pid).transactions = db.transactions := by
  have hppred : (p.id == pid) = true :=
    List.find?_some (p := fun x : Product => x.id == pid) hp
  have hfpres : ∀ r : Product,
      ((if r.id == pid then { r with status := "inactive" } else r).id == pid)
        = (r.id == pid) := by
    intro r
    by_cases h : (r.id == pid) = true
    · rw [if_pos h]
    · rw [if_neg h]
  have hinact : ∀ q ∈ (MarketplaceRepository.Delete db pid).products,
      q.id = pid → q.status = "inactive" := by
    intro q hq hqid
    rcases List.mem_map.mp hq with ⟨r, _, hfr⟩
    by_cases h : (r.id == pid) = true
    · rw [if_pos h] at hfr
      rw [← hfr]
    · rw [if_neg h] at hfr
      rw [← hfr] at hqid
      exact absurd (beq_iff_eq.mpr hqid) h
  have hfind2 : (MarketplaceRepository.Delete db pid).products.find?
      (fun x => x.id == pid) = some { p with status := "inactive" } := by
    show (db.products.map fun r =>
        if r.id == pid then { r with status := "inactive" } else r).find?
        (fun x => x.id == pid) = some { p with status := "inactive" }
    rw [find?_map_pres _ _ _ hfpres, hp]
    simp only [Option.map_some']
    rw [if_pos hppred]
  refine ⟨?_, ?_, ?_, ?_, ?_, rfl, rfl, rfl⟩
  · unfold MarketplaceRepository.FindByID
    rw [hfind2]
  · intro q hq hqid
    have hf : (if q.id == pid then { q with status := "inactive" } else q) = q := by
      rw [if_neg (by simpa using hqid)]
    have hmm := List.mem_map_of_mem
      (f := fun r : Product => if r.id == pid then { r with status := "inactive" } else r) hq
    simp only at hmm
    rw [hf] at hmm
    exact hmm
  · intro q hq hqid
    rcases List.mem_map.mp hq with ⟨r, hr, hfr⟩
    by_cases h : (r.id == pid) = true
    · exfalso
      apply hqid
      rw [← hfr, if_pos h]
      simpa using h
    · rw [if_neg h] at hfr
      rwa [← hfr]
  · intro q hq hqid
    have hf : (if q.id == pid then { q with status := "inactive" } else q)
        = { q with status := "inactive" } := by
      rw [if_pos (beq_iff_eq.mpr hqid)]
    have hmm := List.mem_map_of_mem
      (f := fun r : Product => if r.id == pid then { r with status := "inactive" } else r) hq
    simp only at hmm
    rw [hf] at hmm
    exact hmm
  · intro q hq hqid
    have hs : ({ status := "active", page := page, limit := limit } :
        ProductListParams).status ≠ "" := by
      show ("active" : String) ≠ ""
      decide
    have hact : q.status = "active" := getAll_mem_status (MarketplaceRepository.Delete db pid)
      { status := "active", page := page, limit := limit } hs q hq
    have hmem := getAll_mem_products (MarketplaceRepository.Delete db pid)
      { status := "active", page := page, limit := limit } q hq
    have hh := hinact q hmem hqid
    rw [hact] at hh
    exact absurd hh (by decide)

/-- Witness for C7 at concrete inputs: deleting product 1 of the sample
database keeps it fetchable by id with status `inactive`, and removes it
from the active-only listing. -/
theorem C7_witness :
    MarketplaceRepository.FindByID (MarketplaceRepository.Delete sampleDb 1) 1 =
      .ok { sampleProduct with status := "inactive" }
  ∧ (∀ q ∈ (MarketplaceRepository.GetAll (MarketplaceRepository.Delete sampleDb 1)
        { status := "active", page := 1, limit := 20 }).1, q.id ≠ 1) :=
  ⟨(C7_soft_delete sampleDb 1 sampleProduct rfl 1 20).1,
   (C7_soft_delete sampleDb 1 sampleProduct rfl 1 20).2.2.2.2.1⟩

/-- C8: for a product id that parses but matches no product row, get-by-id,
update and delete each fail with `product not found`, the handlers map the
failure to HTTP 404, and the database is left unchanged. -/
theorem C8_not_found_404 (db : Db) (ctx : ReqCtx) (idParam : String) (pid : Nat)
    (u : MarketplaceRepository.ProductUpdates)
    (hparse : parseUint32 idParam = .ok pid)
    (hmiss : db.products.find? (fun x => x.id == pid) = none) :
    MarketplaceRepository.FindByID db pid = .error "product not found"
  ∧ (MarketplaceHandler.GetByID db idParam).status = 404
  ∧ (MarketplaceHandler.GetByID db idParam).db = db
  ∧ (MarketplaceHandler.Update db ctx idParam u).status = 404
  ∧ (MarketplaceHandler.Update db ctx idParam u).message = "product not found"
  ∧ (MarketplaceHandler.Update db ctx idParam u).db = db
  ∧ (MarketplaceHandler.Delete db ctx idParam).status = 404
  ∧ (MarketplaceHandler.Delete db ctx idParam).message = "product not found"
  ∧ (MarketplaceHandler.Delete db ctx idParam).db = db := by
  have hfind : MarketplaceRepository.FindByID db pid = .error "product not found" := by
    unfold MarketplaceRepository.FindByID
    rw [hmiss]
  refine ⟨hfind, ?_, ?_, ?_, ?_, ?_, ?_, ?_, ?_⟩ <;>
    simp [MarketplaceHandler.GetByID, MarketplaceHandler.Update,
      MarketplaceHandler.Delete, hparse, ServiceGetProductByID,
      ServiceUpdateProduct, ServiceDeleteProduct, hfind]

/-- Witness for C8 at concrete inputs: product id 5 is absent from the
sample database, so all three operations 404 and change nothing. -/
theorem C8_witness :
    MarketplaceRepository.FindByID sampleDb 5 = .error "product not found"
  ∧ (MarketplaceHandler.GetByID sampleDb "5").status = 404
  ∧ (MarketplaceHandler.GetByID sampleDb "5").db = sampleDb
  ∧ (MarketplaceHandler.Update sampleDb sampleCtxAdmin "5"
      { name := none, description := none, price := none, stock := none,
        status := none }).status = 404
  ∧ (MarketplaceHandler.Update sampleDb sampleCtxAdmin "5"
      { name := none, description := none, price := none, stock := none,
        status := none }).message = "product not found"
  ∧ (MarketplaceHandler.Update sampleDb sampleCtxAdmin "5"
      { name := none, description := none, price := none, stock := none,
        status := none }).db = sampleDb
  ∧ (MarketplaceHandler.Delete sampleDb sampleCtxAdmin "5").status = 404
  ∧ (MarketplaceHandler.Delete sampleDb sampleCtxAdmin "5").message = "product not found"
  ∧ (MarketplaceHandler.Delete sampleDb sampleCtxAdmin "5").db = sampleDb :=
  C8_not_found_404 sampleDb sampleCtxAdmin "5" 5
    { name := none, description := none, price := none, stock := none, status := none }
    rfl rfl

/-- Witness for C10 at concrete inputs: the malformed item id `abc` yields a
200 response and an unchanged cart for both operations. -/
theorem C10_witness :
    (MarketplaceHandler.UpdateCartItem sampleDbCart sampleCtx "abc" 5).status = 200
  ∧ (MarketplaceHandler.UpdateCartItem sampleDbCart sampleCtx "abc" 5).db = sampleDbCart
  ∧ (MarketplaceHandler.RemoveFromCart sampleDbCart sampleCtx "abc").status = 200
  ∧ (MarketplaceHandler.RemoveFromCart sampleDbCart sampleCtx "abc").db = sampleDbCart :=
  C10_lenient_cart_item_id sampleDbCart sampleCtx "abc" 5 rfl (by decide)

end WalletPoint
